import Mathlib

/-!
Verification of the LogPatch recipe execution engine
(`src/logpatch/logpatch.py`, the current version of the program; the
repository also carries `src/pkgptch.py`, an earlier iteration of the
same script).

The Python code is shallowly embedded as follows:

* an external shell command execution is abstracted by a `CmdResult`
  oracle: the list of output lines the process emits (each line carries
  its trailing newline, exactly as `readline` returns it) and the
  process exit code;
* the generator `subproc_Popen` becomes a trace of generator events
  (`yield` one line / `raise CalledProcessError`);
* `execute` becomes a trace of sink events (console print, file open in
  append mode, file write, file close) plus an optional propagated
  `CalledProcessError`;
* `exec_recipe` threads a clock oracle (one `DateTimeUTC` per
  `datetime_now_utc()` call) and a command-result oracle (one
  `CmdResult` per `execute` call, indexed by invocation order) and
  produces a recipe-level event trace;
* the `try/except subprocess.CalledProcessError` block of `__main__`
  (lines 196-201) becomes `mainRun`, returning the trace together with
  the process exit status;
* the file system is a total map from path strings to file contents
  (a missing file reads as the empty string, matching append-mode
  creation semantics).
-/

namespace LogPatch

/-- Outcome of running one external shell command: the lines the process
writes to its merged stdout/stderr pipe (each including its trailing
newline) and the exit code reported by `popen.wait()`. -/
structure CmdResult where
  lines : List String
  exitCode : Int
  deriving DecidableEq, Repr

/-- Embeds `subprocess.CalledProcessError(return_code, cmd)`: the error
carries the exit code and the command string. -/
structure CalledProcessError where
  returncode : Int
  cmd : String
  deriving DecidableEq, Repr

/-- One event of the generator `subproc_Popen`: either a yielded output
line or the terminal raise of `CalledProcessError`. -/
inductive GenEvent where
  | yieldLine (l : String)
  | raiseErr (e : CalledProcessError)
  deriving DecidableEq, Repr

/-- Embeds `subproc_Popen` (logpatch.py lines 89-104): the generator
yields every line the process emits, in emission order; after the pipe
is exhausted it waits for the process and, when the exit code is
non-zero, raises `CalledProcessError(return_code, cmd)`. -/
def subproc_Popen (cmd : String) (res : CmdResult) : List GenEvent :=
  res.lines.map GenEvent.yieldLine ++
    (if res.exitCode ≠ 0 then [GenEvent.raiseErr ⟨res.exitCode, cmd⟩] else [])

/-- The lines a generator trace yields, in order. -/
def yieldedLines (tr : List GenEvent) : List String :=
  tr.filterMap fun e => match e with
    | GenEvent.yieldLine l => some l
    | GenEvent.raiseErr _ => none

/-- The errors a generator trace raises, in order. -/
def raisedErrs (tr : List GenEvent) : List CalledProcessError :=
  tr.filterMap fun e => match e with
    | GenEvent.yieldLine _ => none
    | GenEvent.raiseErr e => some e

/-- Step identity inside a recipe: pre-patch inventory, the patch
itself, post-patch inventory. -/
inductive Step where
  | prePatchInv
  | patch
  | postPatchInv
  deriving DecidableEq, Repr

/-- Observable events of the engine.  `print` is a console write of one
line (`print(line, end='')`); `fopen`/`fwrite`/`fclose` are the
append-mode file operations of `execute`; `getTimestamp` records one
`datetime_now_utc()` call; `invoke` records one `execute(cmd, log_file)`
call made by `exec_recipe` (an empty `logFile` means console only);
`logInfo` and `logError` are the logger calls. -/
inductive Event where
  | logInfo (msg : String)
  | getTimestamp (ts : String)
  | invoke (step : Step) (cmd : String) (logFile : String)
  | print (l : String)
  | fopen (p : String)
  | fwrite (p : String) (l : String)
  | fclose (p : String)
  | logError (e : CalledProcessError)
  deriving DecidableEq, Repr

/-- The `for line in subproc_Popen(cmd)` loop body of `execute`: each
yielded line is printed to the console and, when a log file is open,
written to it, before the next generator event is pulled; a raise from
the generator aborts the loop and propagates. -/
def drainEvents (logFile : String) : List GenEvent → List Event × Option CalledProcessError
  | [] => ([], none)
  | GenEvent.yieldLine l :: rest =>
      let (es, e) := drainEvents logFile rest
      (Event.print l :: (if logFile ≠ "" then [Event.fwrite logFile l] else []) ++ es, e)
  | GenEvent.raiseErr err :: _ => ([], some err)

/-- Embeds `execute` (logpatch.py lines 106-123): when `log_file` is a
non-empty string the file is opened in append mode for the whole drain
(`with open(log_file, 'a')`), so the close happens even when the
generator raises; when `log_file` is the empty string (its default) no
file operation occurs.  Any error raised by the generator propagates to
the caller. -/
def execute (cmd : String) (res : CmdResult) (logFile : String := "") :
    List Event × Option CalledProcessError :=
  let (es, e) := drainEvents logFile (subproc_Popen cmd res)
  if logFile ≠ "" then
    (Event.fopen logFile :: es ++ [Event.fclose logFile], e)
  else
    (es, e)

/-- The console output of a trace, in order. -/
def consoleLines (tr : List Event) : List String :=
  tr.filterMap fun e => match e with
    | Event.print l => some l
    | _ => none

/-- The lines a trace writes to the file at path `p`, in order. -/
def fileWrites (p : String) (tr : List Event) : List String :=
  tr.filterMap fun e => match e with
    | Event.fwrite q l => if q = p then some l else none
    | _ => none

/-- Whether an event touches the file system at all. -/
def isFileEvent : Event → Bool
  | Event.fopen _ => true
  | Event.fwrite _ _ => true
  | Event.fclose _ => true
  | _ => false

/-- The paths of the `fopen` events of a trace, in order: one entry per
log file opened. -/
def openedFiles (tr : List Event) : List String :=
  tr.filterMap fun e => match e with
    | Event.fopen p => some p
    | _ => none

/-- The `invoke` events of a trace: which step executed which command
with which log file, in order. -/
def invokes (tr : List Event) : List (Step × String × String) :=
  tr.filterMap fun e => match e with
    | Event.invoke s c f => some (s, c, f)
    | _ => none

/-! ## File system model

A file system is a total map from path to content; a path that was
never written reads as the empty string, which matches the append-mode
creation semantics of `open(log_file, 'a')`. -/

/-- Effect of one event on the file system: `fwrite p l` appends `l` to
the file at `p`; `fopen` (append mode) and `fclose` leave every file
content unchanged; console and logger events touch no file. -/
def applyEvent (fs : String → String) : Event → (String → String)
  | Event.fwrite p l => fun q => if q = p then fs q ++ l else fs q
  | _ => fs

/-- Effect of a whole trace on the file system, applied in order. -/
def applyFS (fs : String → String) : List Event → (String → String)
  | [] => fs
  | e :: tr => applyFS (applyEvent fs e) tr

/-! ## Timestamps -/

/-- A UTC wall-clock reading as `datetime.utcnow()` returns it: the
seven components that the format string `%Y%m%dT%H%M%S.%fZ` renders.
Python's `datetime` guarantees `1 <= year <= 9999`, `1 <= month <= 12`,
`1 <= day <= 31`, `hour <= 23`, `minute, second <= 59`,
`microsecond <= 999999`. -/
structure DateTimeUTC where
  year : Nat
  month : Nat
  day : Nat
  hour : Nat
  minute : Nat
  second : Nat
  microsecond : Nat
  deriving DecidableEq, Repr

/-- Component ranges guaranteed by Python `datetime`. -/
def ValidDT (t : DateTimeUTC) : Prop :=
  1 ≤ t.year ∧ t.year ≤ 9999 ∧ 1 ≤ t.month ∧ t.month ≤ 12 ∧
  1 ≤ t.day ∧ t.day ≤ 31 ∧ t.hour ≤ 23 ∧ t.minute ≤ 59 ∧
  t.second ≤ 59 ∧ t.microsecond ≤ 999999

instance (t : DateTimeUTC) : Decidable (ValidDT t) := by
  unfold ValidDT; infer_instance

/-- Rendering of `n` as exactly `k` decimal digits, zero-padded: the
behaviour of the fixed-width zero-padded `strftime` fields `%Y` (4),
`%m` `%d` `%H` `%M` `%S` (2) and `%f` (6) on the in-range components of
a `datetime` value. -/
def padDigits : Nat → Nat → List Char
  | 0, _ => []
  | k + 1, n => padDigits k (n / 10) ++ [Char.ofNat (48 + n % 10)]

/-- Embeds `datetime_now_utc` (logpatch.py lines 28-34) applied to one
clock reading: `datetime.utcnow().strftime('%Y%m%dT%H%M%S.%fZ')`. -/
def datetime_now_utc (t : DateTimeUTC) : String :=
  String.mk (padDigits 4 t.year ++ padDigits 2 t.month ++ padDigits 2 t.day ++
    ['T'] ++ padDigits 2 t.hour ++ padDigits 2 t.minute ++ padDigits 2 t.second ++
    ['.'] ++ padDigits 6 t.microsecond ++ ['Z'])

/-! ## Recipe runner -/

/-- A recipe record after successful schema validation: the six required
fields of one entry of the configuration document. -/
structure Recipe where
  name : String
  log_directory : String
  log_package_version_cmd : Bool
  log_patch_cmd : Bool
  patch_cmd : String
  package_version_cmd : String
  deriving DecidableEq, Repr

/-- Whether a path string begins with the POSIX separator `/`. -/
def startsWithSep (s : String) : Bool := s.data.head? = some '/'

/-- Whether a path string ends with the POSIX separator `/`. -/
def endsWithSep (s : String) : Bool := s.data.getLast? = some '/'

/-- Embeds `os.path.join` on two components (POSIX): an absolute second
component replaces the first; otherwise the parts are joined, inserting
a separator unless the first part is empty or already ends in one. -/
def pathJoin (a b : String) : String :=
  if startsWithSep b then b
  else if a = "" ∨ endsWithSep a then a ++ b
  else a ++ "/" ++ b

/-- Third statement of `exec_recipe` (logpatch.py lines 144-147): when
`log_package_version_cmd` is set, take a fresh timestamp, build the
post-patch inventory file name and execute `package_version_cmd`
draining to it.  `tr` is the trace accumulated so far, `tick` counts the
`datetime_now_utc()` calls already made and `sidx` the `execute` calls
already made. -/
def execStep3 (r : Recipe) (clock : Nat → DateTimeUTC) (env : Nat → CmdResult)
    (tr : List Event) (tick sidx : Nat) : List Event × Option CalledProcessError :=
  if r.log_package_version_cmd then
    let ts := datetime_now_utc (clock tick)
    let lf := pathJoin r.log_directory (ts ++ "_package_versions_post-patch.log")
    let p := execute r.package_version_cmd (env sidx) lf
    (tr ++ [Event.getTimestamp ts, Event.invoke Step.postPatchInv r.package_version_cmd lf] ++ p.1,
     p.2)
  else
    (tr, none)

/-- Second statement of `exec_recipe` (logpatch.py lines 138-143): when
`log_patch_cmd` is set, take a fresh timestamp and execute `patch_cmd`
draining to the `{timestamp}_{name}.log` file, otherwise execute it
draining to the console only; an uncaught `CalledProcessError` aborts
the recipe before step 3 runs. -/
def execStep2 (r : Recipe) (clock : Nat → DateTimeUTC) (env : Nat → CmdResult)
    (tr : List Event) (tick sidx : Nat) : List Event × Option CalledProcessError :=
  if r.log_patch_cmd then
    let ts := datetime_now_utc (clock tick)
    let lf := pathJoin r.log_directory (ts ++ "_" ++ r.name ++ ".log")
    let p := execute r.patch_cmd (env sidx) lf
    let tr2 := tr ++ [Event.getTimestamp ts, Event.invoke Step.patch r.patch_cmd lf] ++ p.1
    match p.2 with
    | some e => (tr2, some e)
    | none => execStep3 r clock env tr2 (tick + 1) (sidx + 1)
  else
    let p := execute r.patch_cmd (env sidx)
    let tr2 := tr ++ [Event.invoke Step.patch r.patch_cmd ""] ++ p.1
    match p.2 with
    | some e => (tr2, some e)
    | none => execStep3 r clock env tr2 tick (sidx + 1)

/-- Embeds `exec_recipe` (logpatch.py lines 125-147).  `clock` is the
oracle read by successive `datetime_now_utc()` calls and `env` the
oracle giving each successive command execution its outcome.  The result
is the event trace together with the `CalledProcessError` that
propagated out of the first failing step, if any; a raise in an earlier
step prevents every later statement from running. -/
def exec_recipe (r : Recipe) (clock : Nat → DateTimeUTC) (env : Nat → CmdResult) :
    List Event × Option CalledProcessError :=
  let ev0 := [Event.logInfo ("Executing recipe: " ++ r.name)]
  if r.log_package_version_cmd then
    let ts := datetime_now_utc (clock 0)
    let lf := pathJoin r.log_directory (ts ++ "_package_versions_pre-patch.log")
    let p := execute r.package_version_cmd (env 0) lf
    let tr1 := ev0 ++ [Event.getTimestamp ts, Event.invoke Step.prePatchInv r.package_version_cmd lf] ++ p.1
    match p.2 with
    | some e => (tr1, some e)
    | none => execStep2 r clock env tr1 1 1
  else
    execStep2 r clock env ev0 0 0

/-- Embeds the tail of `__main__` (logpatch.py lines 196-201): run the
selected recipe under `try`, catch `subprocess.CalledProcessError`, log
it with `logger.error`, and fall through to `exit(0)` in either case.
Returns the trace and the process exit status. -/
def mainRun (r : Recipe) (clock : Nat → DateTimeUTC) (env : Nat → CmdResult) :
    List Event × Int :=
  match (exec_recipe r clock env).2 with
  | some e => ((exec_recipe r clock env).1 ++ [Event.logError e], 0)
  | none => ((exec_recipe r clock env).1, 0)

/-! ## The three generated log file names -/

/-- Step-1 log file name: `path.join(recipe['log_directory'],
f"{datetime_now_utc()}_package_versions_pre-patch.log")` at the given
clock reading. -/
def preLogName (r : Recipe) (t : DateTimeUTC) : String :=
  pathJoin r.log_directory (datetime_now_utc t ++ "_package_versions_pre-patch.log")

/-- Step-2 log file name: `path.join(recipe['log_directory'],
f"{datetime_now_utc()}_{recipe['name']}.log")` at the given clock
reading. -/
def patchLogName (r : Recipe) (t : DateTimeUTC) : String :=
  pathJoin r.log_directory (datetime_now_utc t ++ "_" ++ r.name ++ ".log")

/-- Step-3 log file name: `path.join(recipe['log_directory'],
f"{datetime_now_utc()}_package_versions_post-patch.log")` at the given
clock reading. -/
def postLogName (r : Recipe) (t : DateTimeUTC) : String :=
  pathJoin r.log_directory (datetime_now_utc t ++ "_package_versions_post-patch.log")

/-- The shape required of a rendered timestamp: the character data is
four year digits, two month digits, two day digits, a literal `T`, two
hour digits, two minute digits, two second digits, a literal `.`, six
microsecond digits and a literal `Z` — `YYYYMMDDThhmmss.ffffffZ`. -/
def TimestampFormat (s : String) : Prop :=
  ∃ y mo d h mi sec f : List Char,
    s.data = y ++ mo ++ d ++ ['T'] ++ h ++ mi ++ sec ++ ['.'] ++ f ++ ['Z'] ∧
    y.length = 4 ∧ mo.length = 2 ∧ d.length = 2 ∧ h.length = 2 ∧ mi.length = 2 ∧
    sec.length = 2 ∧ f.length = 6 ∧
    (∀ c, c ∈ y ++ mo ++ d ++ h ++ mi ++ sec ++ f → c.isDigit = true)

/-! ## Concrete fixtures used by the witness theorems -/

/-- The example recipe of the spec with both logging flags set. -/
def rcTT : Recipe :=
  ⟨"demo", "/tmp/logs", true, true, "echo patched", "echo v1"⟩

/-- The example recipe with both logging flags cleared. -/
def rcFF : Recipe :=
  ⟨"demo", "/tmp/logs", false, false, "echo patched", "echo v1"⟩

/-- A concrete clock: successive readings differ in the microsecond
component. -/
def clk : Nat → DateTimeUTC := fun i => ⟨2022, 12, 1, 10, 20, 30, i⟩

/-- Every command prints one line and succeeds. -/
def envOK : Nat → CmdResult := fun _ => ⟨["v1\n"], 0⟩

/-- Every command prints one line and exits 2: in particular the first
command of the recipe fails. -/
def envFail0 : Nat → CmdResult := fun _ => ⟨["boom\n"], 2⟩

/-- The first command succeeds, every later one exits 3. -/
def envFail1 : Nat → CmdResult :=
  fun i => if i = 0 then ⟨["ok\n"], 0⟩ else ⟨["bad\n"], 3⟩

/-! ## Schema validation

`validate_schema_conf` (logpatch.py lines 36-87) builds a fixed Draft 7
JSON schema and collects `list(validator.iter_errors(conf))`.  The
deserialized YAML document is embedded as `JVal`; `iter_errors` below is
the Draft 7 validation of that fixed schema, keyword by keyword:

* top level: `type: object` (a non-object document yields one error and
  the object keywords do not apply);
* `additionalProperties` at the top level (with no `properties` or
  `patternProperties` beside it) applies the entry sub-schema to every
  property value, in document order;
* entry sub-schema: `type: object`, then `properties` (a present
  property whose value fails its `type` yields one error at the
  property path; type keywords and `required` skip non-object
  instances), then `required` (one error per missing property, at the
  entry path).

Errors carry the instance path (entry key, then property name) and a
human-readable message. -/

/-- A deserialized YAML/JSON value.  Scalars other than strings and
booleans (numbers, null) only ever matter here as "not a string and not
a boolean and not an object", so numbers are collapsed to `Int`. -/
inductive JVal where
  | null
  | bool (b : Bool)
  | num (n : Int)
  | str (s : String)
  | arr (xs : List JVal)
  | obj (kvs : List (String × JVal))

/-- JSON schema `type: string` check. -/
def isStr : JVal → Bool
  | JVal.str _ => true
  | _ => false

/-- JSON schema `type: boolean` check. -/
def isBool : JVal → Bool
  | JVal.bool _ => true
  | _ => false

/-- One entry of `validator.iter_errors(conf)`: the path of the
offending instance (top-level key, then property name) and a
description. -/
structure SchemaError where
  path : List String
  message : String
  deriving DecidableEq, Repr

/-- The `properties` map of the entry sub-schema, in the insertion order
of the Python dict literal at logpatch.py lines 50-75: each property
name with its `type` check. -/
def propSchemas : List (String × (JVal → Bool)) :=
  [("log_directory", isStr), ("log_package_version_cmd", isBool),
   ("log_patch_cmd", isBool), ("name", isStr),
   ("patch_cmd", isStr), ("package_version_cmd", isStr)]

/-- The `required` list of the entry sub-schema (logpatch.py lines
76-77). -/
def requiredProps : List String :=
  ["log_directory", "log_package_version_cmd", "log_patch_cmd", "name",
   "patch_cmd", "package_version_cmd"]

/-- Errors of the `properties` keyword on one entry object: one error
per property that is present but fails its `type` check. -/
def propertiesErrors (k : String) (kvs : List (String × JVal)) : List SchemaError :=
  propSchemas.filterMap fun pc =>
    match kvs.lookup pc.1 with
    | some v => if pc.2 v then none else some ⟨[k, pc.1], "wrong type for property " ++ pc.1⟩
    | none => none

/-- Errors of the `required` keyword on one entry object: one error per
required property that is absent. -/
def requiredErrors (k : String) (kvs : List (String × JVal)) : List SchemaError :=
  requiredProps.filterMap fun p =>
    match kvs.lookup p with
    | some _ => none
    | none => some ⟨[k], "required property missing: " ++ p⟩

/-- Validation of one top-level entry against the entry sub-schema: a
non-object value yields exactly the `type` error; an object is checked
by `properties` and then `required`. -/
def entryErrors (k : String) (v : JVal) : List SchemaError :=
  match v with
  | JVal.obj kvs => propertiesErrors k kvs ++ requiredErrors k kvs
  | _ => [⟨[k], "entry is not of type object"⟩]

/-- Embeds `list(Draft7Validator(schema).iter_errors(conf))` for the
fixed schema of `validate_schema_conf`: a non-object document yields the
top-level `type` error; for an object, `additionalProperties` checks
every entry in document order. -/
def iter_errors (conf : JVal) : List SchemaError :=
  match conf with
  | JVal.obj kvs => kvs.flatMap fun kv => entryErrors kv.1 kv.2
  | _ => [⟨[], "document is not of type object"⟩]

/-- Embeds `validate_schema_conf` (logpatch.py lines 36-87): 0 when
`iter_errors` is empty, 1 otherwise (after logging each error). -/
def validate_schema_conf (conf : JVal) : Nat :=
  if iter_errors conf = [] then 0 else 1

/-- Stated from the spec's words, for comparison with the validator: an
entry is valid when it is an object containing all six required
properties with the exact types — strings `log_directory`, `name`,
`patch_cmd`, `package_version_cmd` and booleans
`log_package_version_cmd`, `log_patch_cmd`; additional unknown
properties are ignored. -/
def EntryValidSpec (v : JVal) : Bool :=
  match v with
  | JVal.obj kvs =>
      (match kvs.lookup "log_directory" with | some x => isStr x | none => false) &&
      (match kvs.lookup "name" with | some x => isStr x | none => false) &&
      (match kvs.lookup "patch_cmd" with | some x => isStr x | none => false) &&
      (match kvs.lookup "package_version_cmd" with | some x => isStr x | none => false) &&
      (match kvs.lookup "log_package_version_cmd" with | some x => isBool x | none => false) &&
      (match kvs.lookup "log_patch_cmd" with | some x => isBool x | none => false)
  | _ => false

/-- A schema-valid entry object carrying one unknown extra property. -/
def goodEntry : JVal :=
  JVal.obj [("log_directory", JVal.str "/tmp"),
            ("log_package_version_cmd", JVal.bool true),
            ("log_patch_cmd", JVal.bool false),
            ("name", JVal.str "good"),
            ("patch_cmd", JVal.str "p"),
            ("package_version_cmd", JVal.str "q"),
            ("extra", JVal.num 3)]

/-- A document with one valid and one invalid entry. -/
def kvsW : List (String × JVal) := [("good", goodEntry), ("bad", JVal.str "oops")]

/-! ## Basic lemmas about the streaming executor and the dual-sink drain -/

lemma drainEvents_yield_list (lf : String) (lines : List String) :
    drainEvents lf (lines.map GenEvent.yieldLine) =
      (lines.flatMap fun l =>
        Event.print l :: (if lf ≠ "" then [Event.fwrite lf l] else []), none) := by
  induction lines with
  | nil => simp [drainEvents]
  | cons l rest ih => simp [drainEvents, ih]

lemma drainEvents_yield_raise (lf : String) (lines : List String) (e : CalledProcessError) :
    drainEvents lf (lines.map GenEvent.yieldLine ++ [GenEvent.raiseErr e]) =
      (lines.flatMap fun l =>
        Event.print l :: (if lf ≠ "" then [Event.fwrite lf l] else []), some e) := by
  induction lines with
  | nil => simp [drainEvents]
  | cons l rest ih => simp [drainEvents, ih]

/-- Closed form of `execute`, covering both sink modes and both exit
outcomes at once. -/
lemma execute_pair (cmd : String) (res : CmdResult) (lf : String) :
    execute cmd res lf =
      ((if lf ≠ "" then [Event.fopen lf] else []) ++
        (res.lines.flatMap fun l =>
          Event.print l :: (if lf ≠ "" then [Event.fwrite lf l] else [])) ++
        (if lf ≠ "" then [Event.fclose lf] else []),
       if res.exitCode ≠ 0 then some ⟨res.exitCode, cmd⟩ else none) := by
  unfold execute subproc_Popen
  by_cases h : res.exitCode = 0 <;> by_cases hlf : lf = "" <;>
    simp [h, hlf, drainEvents_yield_list, drainEvents_yield_raise]

lemma execute_file_eq (cmd : String) (res : CmdResult) (lf : String) (h : lf ≠ "") :
    execute cmd res lf =
      (Event.fopen lf ::
        (res.lines.flatMap fun l => [Event.print l, Event.fwrite lf l]) ++ [Event.fclose lf],
       if res.exitCode ≠ 0 then some ⟨res.exitCode, cmd⟩ else none) := by
  simp [execute_pair, h]

lemma execute_console_eq (cmd : String) (res : CmdResult) :
    execute cmd res "" =
      (res.lines.map Event.print,
       if res.exitCode ≠ 0 then some ⟨res.exitCode, cmd⟩ else none) := by
  have hmap : res.lines.flatMap (fun l => [Event.print l]) = res.lines.map Event.print := by
    induction res.lines with
    | nil => simp
    | cons a t ih => simp [ih]
  simp [execute_pair, hmap]

/-- Every element of an `execute` trace is a sink event of the drained
command: a console print, or a file operation on the command's own log
file. -/
lemma mem_execute_cases (cmd : String) (res : CmdResult) (lf : String) (e : Event)
    (he : e ∈ (execute cmd res lf).1) :
    (∃ l, l ∈ res.lines ∧ e = Event.print l) ∨
    (∃ l, l ∈ res.lines ∧ e = Event.fwrite lf l) ∨
    e = Event.fopen lf ∨ e = Event.fclose lf := by
  rw [execute_pair] at he
  rcases eq_or_ne lf "" with h | h
  · simp only [h, ne_eq, not_true_eq_false, if_false, List.append_nil, List.nil_append,
      List.mem_flatMap, List.mem_cons, List.not_mem_nil, or_false] at he
    obtain ⟨l, hl, hel⟩ := he
    exact Or.inl ⟨l, hl, hel⟩
  · simp only [h, ne_eq, not_false_eq_true, if_true, List.mem_append, List.mem_flatMap,
      List.mem_cons, List.mem_singleton, List.not_mem_nil, or_false] at he
    rcases he with (he | ⟨l, hl, he | he⟩) | he
    · exact Or.inr (Or.inr (Or.inl he))
    · exact Or.inl ⟨l, hl, he⟩
    · exact Or.inr (Or.inl ⟨l, hl, he⟩)
    · exact Or.inr (Or.inr (Or.inr he))

lemma invoke_not_mem_execute (cmd : String) (res : CmdResult) (lf : String)
    (s : Step) (c f : String) : Event.invoke s c f ∉ (execute cmd res lf).1 := by
  intro hmem
  rcases mem_execute_cases cmd res lf _ hmem with ⟨l, _, h⟩ | ⟨l, _, h⟩ | h | h <;> simp at h

lemma invokes_execute (cmd : String) (res : CmdResult) (lf : String) :
    invokes (execute cmd res lf).1 = [] := by
  refine List.filterMap_eq_nil_iff.mpr fun e he => ?_
  rcases mem_execute_cases cmd res lf e he with ⟨l, _, h⟩ | ⟨l, _, h⟩ | h | h <;> simp [h]

lemma consoleLines_flat (lf : String) (lines : List String) :
    consoleLines (lines.flatMap fun l => [Event.print l, Event.fwrite lf l]) = lines := by
  induction lines with
  | nil => simp [consoleLines]
  | cons a t ih => simpa [consoleLines, List.filterMap_cons] using ih

lemma consoleLines_map_print (lines : List String) :
    consoleLines (lines.map Event.print) = lines := by
  induction lines with
  | nil => simp [consoleLines]
  | cons a t ih => simpa [consoleLines, List.filterMap_cons] using ih

lemma consoleLines_execute (cmd : String) (res : CmdResult) (lf : String) :
    consoleLines (execute cmd res lf).1 = res.lines := by
  rcases eq_or_ne lf "" with h | h
  · subst h
    rw [execute_console_eq]
    exact consoleLines_map_print res.lines
  · rw [execute_file_eq cmd res lf h]
    simpa [consoleLines, List.filterMap_cons, List.filterMap_append]
      using consoleLines_flat lf res.lines

lemma fileWrites_flat (lf : String) (lines : List String) :
    fileWrites lf (lines.flatMap fun l => [Event.print l, Event.fwrite lf l]) = lines := by
  induction lines with
  | nil => simp [fileWrites]
  | cons a t ih => simpa [fileWrites, List.filterMap_cons] using ih

lemma openedFiles_flat (lf : String) (lines : List String) :
    openedFiles (lines.flatMap fun l => [Event.print l, Event.fwrite lf l]) = [] := by
  induction lines with
  | nil => simp [openedFiles]
  | cons a t ih => simpa [openedFiles, List.filterMap_cons] using ih

lemma openedFiles_map_print (lines : List String) :
    openedFiles (lines.map Event.print) = [] := by
  induction lines with
  | nil => simp [openedFiles]
  | cons a t ih => simp [openedFiles, List.filterMap_cons]

lemma openedFiles_execute (cmd : String) (res : CmdResult) (lf : String) :
    openedFiles (execute cmd res lf).1 = if lf ≠ "" then [lf] else [] := by
  rcases eq_or_ne lf "" with h | h
  · subst h
    rw [execute_console_eq]
    simpa using openedFiles_map_print res.lines
  · rw [execute_file_eq cmd res lf h]
    simpa [h, openedFiles, List.filterMap_cons, List.filterMap_append]
      using openedFiles_flat lf res.lines

lemma print_mem_execute (cmd : String) (res : CmdResult) (lf : String) (l : String)
    (hl : l ∈ res.lines) : Event.print l ∈ (execute cmd res lf).1 := by
  rw [execute_pair]
  refine List.mem_append_left _ (List.mem_append_right _ ?_)
  exact List.mem_flatMap.mpr ⟨l, hl, by simp⟩

lemma execute_snd (cmd : String) (res : CmdResult) (lf : String) :
    (execute cmd res lf).2 = if res.exitCode ≠ 0 then some ⟨res.exitCode, cmd⟩ else none := by
  rw [execute_pair]

/-! ## File system effect of one drain -/

lemma applyFS_append (a b : List Event) (fs : String → String) :
    applyFS fs (a ++ b) = applyFS (applyFS fs a) b := by
  induction a generalizing fs with
  | nil => simp [applyFS]
  | cons e t ih => simp [applyFS, ih]

lemma foldl_append_join (t : List String) :
    ∀ a : String, List.foldl (fun r s => r ++ s) a t = a ++ String.join t := by
  induction t with
  | nil =>
      intro a
      have hj : String.join ([] : List String) = "" := rfl
      simp [hj, String.append_empty]
  | cons b t ih =>
      intro a
      show List.foldl (fun r s => r ++ s) (a ++ b) t = a ++ String.join (b :: t)
      rw [ih (a ++ b)]
      have hcons : String.join (b :: t) = b ++ String.join t := by
        show List.foldl (fun r s => r ++ s) ("" ++ b) t = b ++ String.join t
        rw [show ("" : String) ++ b = b from rfl]
        exact ih b
      rw [hcons, String.append_assoc]

lemma join_cons (a : String) (t : List String) :
    String.join (a :: t) = a ++ String.join t := by
  show List.foldl (fun r s => r ++ s) ("" ++ a) t = a ++ String.join t
  rw [show ("" : String) ++ a = a from rfl]
  exact foldl_append_join t a

lemma applyFS_flat (lf : String) (lines : List String) (fs : String → String) :
    applyFS fs (lines.flatMap fun l => [Event.print l, Event.fwrite lf l]) =
      fun q => if q = lf then fs q ++ String.join lines else fs q := by
  induction lines generalizing fs with
  | nil =>
      funext q
      have hj : String.join ([] : List String) = "" := rfl
      simp [applyFS, hj, String.append_empty]
  | cons a t ih =>
      rw [List.flatMap_cons, applyFS_append]
      have h2 : applyFS fs [Event.print a, Event.fwrite lf a] =
          fun q => if q = lf then fs q ++ a else fs q := by
        funext q
        simp [applyFS, applyEvent]
      rw [h2, ih]
      funext q
      by_cases hq : q = lf
      · subst hq
        simp [join_cons, String.append_assoc]
      · simp [hq]

lemma applyFS_execute_file (fs : String → String) (cmd : String) (res : CmdResult)
    (lf : String) (h : lf ≠ "") :
    applyFS fs (execute cmd res lf).1 =
      fun q => if q = lf then fs q ++ String.join res.lines else fs q := by
  rw [execute_file_eq cmd res lf h]
  rw [show Event.fopen lf ::
        (res.lines.flatMap fun l => [Event.print l, Event.fwrite lf l]) ++ [Event.fclose lf] =
      [Event.fopen lf] ++
        ((res.lines.flatMap fun l => [Event.print l, Event.fwrite lf l]) ++ [Event.fclose lf])
    from rfl]
  rw [applyFS_append, applyFS_append, applyFS_flat]
  funext q
  simp [applyFS, applyEvent]

lemma getLast_execute_file (cmd : String) (res : CmdResult) (lf : String) (h : lf ≠ "") :
    (execute cmd res lf).1.getLast? = some (Event.fclose lf) := by
  rw [execute_file_eq cmd res lf h]
  exact List.getLast?_concat _

/-! ## Path and timestamp string lemmas -/

lemma append_ne_empty_right (a b : String) (hb : b ≠ "") : a ++ b ≠ "" := by
  intro h
  apply hb
  have hd := congrArg String.data h
  rw [String.data_append] at hd
  have hnil : b.data = [] := (List.append_eq_nil.mp hd).2
  exact String.ext hnil

lemma pathJoin_ne_empty (a b : String) (hb : b ≠ "") : pathJoin a b ≠ "" := by
  unfold pathJoin
  by_cases h1 : startsWithSep b = true
  · simpa [h1] using hb
  · by_cases h2 : a = "" ∨ endsWithSep a = true
    · simpa [h1, h2] using append_ne_empty_right a b hb
    · simpa [h1, h2] using append_ne_empty_right (a ++ "/") b hb

lemma padDigits_length (k n : Nat) : (padDigits k n).length = k := by
  induction k generalizing n with
  | zero => simp [padDigits]
  | succ k ih => simp [padDigits, ih]

lemma padDigits_digits (k n : Nat) : ∀ c ∈ padDigits k n, c.isDigit = true := by
  induction k generalizing n with
  | zero => simp [padDigits]
  | succ k ih =>
      intro c hc
      rw [padDigits, List.mem_append] at hc
      rcases hc with hc | hc
      · exact ih _ _ hc
      · rw [List.mem_singleton] at hc
        subst hc
        have h10 : n % 10 < 10 := Nat.mod_lt n (by norm_num)
        set m := n % 10 with hm
        interval_cases m <;> decide

lemma datetime_now_utc_ne_empty (t : DateTimeUTC) : datetime_now_utc t ≠ "" := by
  intro h
  have hd := congrArg String.data h
  unfold datetime_now_utc at hd
  simp at hd

lemma preLogName_ne_empty (r : Recipe) (t : DateTimeUTC) : preLogName r t ≠ "" :=
  pathJoin_ne_empty _ _ (append_ne_empty_right _ _ (by decide))

lemma patchLogName_ne_empty (r : Recipe) (t : DateTimeUTC) : patchLogName r t ≠ "" :=
  pathJoin_ne_empty _ _ (append_ne_empty_right _ _ (by decide))

lemma postLogName_ne_empty (r : Recipe) (t : DateTimeUTC) : postLogName r t ≠ "" :=
  pathJoin_ne_empty _ _ (append_ne_empty_right _ _ (by decide))

/-! ## Trace characterizations of `exec_recipe`

One lemma per flag combination and failure point, each giving the whole
event trace and the propagated error. -/

/-- Definitional closed form of `subproc_Popen`, recorded for use after
the executor definitions are made irreducible. -/
lemma subproc_Popen_eq (cmd : String) (res : CmdResult) :
    subproc_Popen cmd res =
      res.lines.map GenEvent.yieldLine ++
        (if res.exitCode ≠ 0 then [GenEvent.raiseErr ⟨res.exitCode, cmd⟩] else []) := rfl

lemma yieldedLines_map (lines : List String) :
    yieldedLines (lines.map GenEvent.yieldLine) = lines := by
  induction lines with
  | nil => simp [yieldedLines]
  | cons a t ih => simpa [yieldedLines, List.filterMap_cons] using ih

lemma raisedErrs_map (lines : List String) :
    raisedErrs (lines.map GenEvent.yieldLine) = [] := by
  induction lines with
  | nil => simp [raisedErrs]
  | cons a t ih => simp [raisedErrs, List.filterMap_cons]

lemma fileWrites_execute (cmd : String) (res : CmdResult) (lf : String) (h : lf ≠ "") :
    fileWrites lf (execute cmd res lf).1 = res.lines := by
  rw [execute_file_eq cmd res lf h]
  simpa [fileWrites, List.filterMap_cons, List.filterMap_append]
    using fileWrites_flat lf res.lines

lemma filter_isFileEvent_map_print (lines : List String) :
    (lines.map Event.print).filter isFileEvent = [] := by
  induction lines with
  | nil => simp
  | cons a t ih => simp [isFileEvent, ih]

/-! ## Distribution lemmas for the trace observers -/

lemma invokes_append (a b : List Event) : invokes (a ++ b) = invokes a ++ invokes b :=
  List.filterMap_append a b _

lemma invokes_nil : invokes [] = [] := rfl

lemma invokes_cons_logInfo (m : String) (tr : List Event) :
    invokes (Event.logInfo m :: tr) = invokes tr := by
  simp [invokes, List.filterMap_cons]

lemma invokes_cons_timestamp (ts : String) (tr : List Event) :
    invokes (Event.getTimestamp ts :: tr) = invokes tr := by
  simp [invokes, List.filterMap_cons]

lemma invokes_cons_invoke (st : Step) (c f : String) (tr : List Event) :
    invokes (Event.invoke st c f :: tr) = (st, c, f) :: invokes tr := by
  simp [invokes, List.filterMap_cons]

lemma mem_invokes (tr : List Event) (st : Step) (c f : String) :
    Event.invoke st c f ∈ tr ↔ (st, c, f) ∈ invokes tr := by
  constructor
  · intro h
    exact List.mem_filterMap.mpr ⟨Event.invoke st c f, h, by simp⟩
  · intro h
    obtain ⟨e, he, hf⟩ := List.mem_filterMap.mp h
    cases e <;> simp at hf
    obtain ⟨h1, h2, h3⟩ := hf
    subst h1; subst h2; subst h3
    exact he

lemma openedFiles_append (a b : List Event) :
    openedFiles (a ++ b) = openedFiles a ++ openedFiles b :=
  List.filterMap_append a b _

lemma openedFiles_nil : openedFiles [] = [] := rfl

lemma openedFiles_cons_logInfo (m : String) (tr : List Event) :
    openedFiles (Event.logInfo m :: tr) = openedFiles tr := by
  simp [openedFiles, List.filterMap_cons]

lemma openedFiles_cons_timestamp (ts : String) (tr : List Event) :
    openedFiles (Event.getTimestamp ts :: tr) = openedFiles tr := by
  simp [openedFiles, List.filterMap_cons]

lemma openedFiles_cons_invoke (st : Step) (c f : String) (tr : List Event) :
    openedFiles (Event.invoke st c f :: tr) = openedFiles tr := by
  simp [openedFiles, List.filterMap_cons]

/-- The function `datetime_now_utc` always renders the `YYYYMMDDThhmmss.ffffffZ`
shape: the Python `%`-fields are fixed-width and zero-padded for the
component ranges `datetime` guarantees. -/
lemma datetime_now_utc_format (t : DateTimeUTC) : TimestampFormat (datetime_now_utc t) := by
  refine ⟨padDigits 4 t.year, padDigits 2 t.month, padDigits 2 t.day,
    padDigits 2 t.hour, padDigits 2 t.minute, padDigits 2 t.second,
    padDigits 6 t.microsecond, rfl,
    padDigits_length 4 t.year, padDigits_length 2 t.month, padDigits_length 2 t.day,
    padDigits_length 2 t.hour, padDigits_length 2 t.minute, padDigits_length 2 t.second,
    padDigits_length 6 t.microsecond, ?_⟩
  intro c hc
  simp only [List.mem_append] at hc
  rcases hc with ((((((hc | hc) | hc) | hc) | hc) | hc) | hc) <;>
    exact padDigits_digits _ _ _ hc

attribute [irreducible] execute subproc_Popen drainEvents pathJoin datetime_now_utc

lemma exec_recipe_step1_fail (r : Recipe) (clock : Nat → DateTimeUTC) (env : Nat → CmdResult)
    (h1 : r.log_package_version_cmd = true) (hf : (env 0).exitCode ≠ 0) :
    exec_recipe r clock env =
      ([Event.logInfo ("Executing recipe: " ++ r.name),
        Event.getTimestamp (datetime_now_utc (clock 0)),
        Event.invoke Step.prePatchInv r.package_version_cmd (preLogName r (clock 0))] ++
        (execute r.package_version_cmd (env 0) (preLogName r (clock 0))).1,
       some ⟨(env 0).exitCode, r.package_version_cmd⟩) := by
  have hs0 : (execute r.package_version_cmd (env 0) (preLogName r (clock 0))).2 =
      some ⟨(env 0).exitCode, r.package_version_cmd⟩ := by
    rw [execute_snd, if_pos hf]
  unfold exec_recipe
  rw [h1]
  simp only [preLogName] at hs0 ⊢
  simp [hs0]

lemma exec_recipe_tt_ok (r : Recipe) (clock : Nat → DateTimeUTC) (env : Nat → CmdResult)
    (h1 : r.log_package_version_cmd = true) (h2 : r.log_patch_cmd = true)
    (e0 : (env 0).exitCode = 0) (e1 : (env 1).exitCode = 0) :
    exec_recipe r clock env =
      ([Event.logInfo ("Executing recipe: " ++ r.name),
        Event.getTimestamp (datetime_now_utc (clock 0)),
        Event.invoke Step.prePatchInv r.package_version_cmd (preLogName r (clock 0))] ++
        (execute r.package_version_cmd (env 0) (preLogName r (clock 0))).1 ++
       [Event.getTimestamp (datetime_now_utc (clock 1)),
        Event.invoke Step.patch r.patch_cmd (patchLogName r (clock 1))] ++
        (execute r.patch_cmd (env 1) (patchLogName r (clock 1))).1 ++
       [Event.getTimestamp (datetime_now_utc (clock 2)),
        Event.invoke Step.postPatchInv r.package_version_cmd (postLogName r (clock 2))] ++
        (execute r.package_version_cmd (env 2) (postLogName r (clock 2))).1,
       (execute r.package_version_cmd (env 2) (postLogName r (clock 2))).2) := by
  have hs0 : (execute r.package_version_cmd (env 0) (preLogName r (clock 0))).2 = none := by
    rw [execute_snd, if_neg (by simp [e0])]
  have hs1 : (execute r.patch_cmd (env 1) (patchLogName r (clock 1))).2 = none := by
    rw [execute_snd, if_neg (by simp [e1])]
  unfold exec_recipe execStep2 execStep3
  rw [h1, h2]
  simp only [preLogName] at hs0
  simp only [patchLogName] at hs1
  simp only [preLogName, patchLogName, postLogName]
  simp [hs0, hs1, List.append_assoc]

lemma exec_recipe_tt_patch_fail (r : Recipe) (clock : Nat → DateTimeUTC) (env : Nat → CmdResult)
    (h1 : r.log_package_version_cmd = true) (h2 : r.log_patch_cmd = true)
    (e0 : (env 0).exitCode = 0) (e1 : (env 1).exitCode ≠ 0) :
    exec_recipe r clock env =
      ([Event.logInfo ("Executing recipe: " ++ r.name),
        Event.getTimestamp (datetime_now_utc (clock 0)),
        Event.invoke Step.prePatchInv r.package_version_cmd (preLogName r (clock 0))] ++
        (execute r.package_version_cmd (env 0) (preLogName r (clock 0))).1 ++
       [Event.getTimestamp (datetime_now_utc (clock 1)),
        Event.invoke Step.patch r.patch_cmd (patchLogName r (clock 1))] ++
        (execute r.patch_cmd (env 1) (patchLogName r (clock 1))).1,
       some ⟨(env 1).exitCode, r.patch_cmd⟩) := by
  have hs0 : (execute r.package_version_cmd (env 0) (preLogName r (clock 0))).2 = none := by
    rw [execute_snd, if_neg (by simp [e0])]
  have hs1 : (execute r.patch_cmd (env 1) (patchLogName r (clock 1))).2 =
      some ⟨(env 1).exitCode, r.patch_cmd⟩ := by
    rw [execute_snd, if_pos e1]
  unfold exec_recipe execStep2
  rw [h1, h2]
  simp only [preLogName] at hs0
  simp only [patchLogName] at hs1
  simp only [preLogName, patchLogName]
  simp [hs0, hs1, List.append_assoc]

lemma exec_recipe_tf_patch_fail (r : Recipe) (clock : Nat → DateTimeUTC) (env : Nat → CmdResult)
    (h1 : r.log_package_version_cmd = true) (h2 : r.log_patch_cmd = false)
    (e0 : (env 0).exitCode = 0) (e1 : (env 1).exitCode ≠ 0) :
    exec_recipe r clock env =
      ([Event.logInfo ("Executing recipe: " ++ r.name),
        Event.getTimestamp (datetime_now_utc (clock 0)),
        Event.invoke Step.prePatchInv r.package_version_cmd (preLogName r (clock 0))] ++
        (execute r.package_version_cmd (env 0) (preLogName r (clock 0))).1 ++
       [Event.invoke Step.patch r.patch_cmd ""] ++
        (execute r.patch_cmd (env 1) "").1,
       some ⟨(env 1).exitCode, r.patch_cmd⟩) := by
  have hs0 : (execute r.package_version_cmd (env 0) (preLogName r (clock 0))).2 = none := by
    rw [execute_snd, if_neg (by simp [e0])]
  have hs1 : (execute r.patch_cmd (env 1) "").2 = some ⟨(env 1).exitCode, r.patch_cmd⟩ := by
    rw [execute_snd, if_pos e1]
  unfold exec_recipe execStep2
  rw [h1, h2]
  simp only [preLogName] at hs0
  simp only [preLogName]
  simp [hs0, hs1, List.append_assoc]

lemma exec_recipe_tf_ok (r : Recipe) (clock : Nat → DateTimeUTC) (env : Nat → CmdResult)
    (h1 : r.log_package_version_cmd = true) (h2 : r.log_patch_cmd = false)
    (e0 : (env 0).exitCode = 0) (e1 : (env 1).exitCode = 0) :
    exec_recipe r clock env =
      ([Event.logInfo ("Executing recipe: " ++ r.name),
        Event.getTimestamp (datetime_now_utc (clock 0)),
        Event.invoke Step.prePatchInv r.package_version_cmd (preLogName r (clock 0))] ++
        (execute r.package_version_cmd (env 0) (preLogName r (clock 0))).1 ++
       [Event.invoke Step.patch r.patch_cmd ""] ++
        (execute r.patch_cmd (env 1) "").1 ++
       [Event.getTimestamp (datetime_now_utc (clock 1)),
        Event.invoke Step.postPatchInv r.package_version_cmd (postLogName r (clock 1))] ++
        (execute r.package_version_cmd (env 2) (postLogName r (clock 1))).1,
       (execute r.package_version_cmd (env 2) (postLogName r (clock 1))).2) := by
  have hs0 : (execute r.package_version_cmd (env 0) (preLogName r (clock 0))).2 = none := by
    rw [execute_snd, if_neg (by simp [e0])]
  have hs1 : (execute r.patch_cmd (env 1) "").2 = none := by
    rw [execute_snd, if_neg (by simp [e1])]
  unfold exec_recipe execStep2 execStep3
  rw [h1, h2]
  simp only [preLogName] at hs0
  simp only [preLogName, postLogName]
  simp [hs0, hs1, List.append_assoc]

lemma exec_recipe_ft (r : Recipe) (clock : Nat → DateTimeUTC) (env : Nat → CmdResult)
    (h1 : r.log_package_version_cmd = false) (h2 : r.log_patch_cmd = true) :
    exec_recipe r clock env =
      ([Event.logInfo ("Executing recipe: " ++ r.name),
        Event.getTimestamp (datetime_now_utc (clock 0)),
        Event.invoke Step.patch r.patch_cmd (patchLogName r (clock 0))] ++
        (execute r.patch_cmd (env 0) (patchLogName r (clock 0))).1,
       (execute r.patch_cmd (env 0) (patchLogName r (clock 0))).2) := by
  unfold exec_recipe execStep2 execStep3
  rw [h1, h2]
  rcases hsnd : (execute r.patch_cmd (env 0) (patchLogName r (clock 0))).2 with _ | e <;>
    · simp only [patchLogName] at hsnd
      simp only [patchLogName]
      simp [h1, hsnd]

lemma exec_recipe_ff (r : Recipe) (clock : Nat → DateTimeUTC) (env : Nat → CmdResult)
    (h1 : r.log_package_version_cmd = false) (h2 : r.log_patch_cmd = false) :
    exec_recipe r clock env =
      ([Event.logInfo ("Executing recipe: " ++ r.name),
        Event.invoke Step.patch r.patch_cmd ""] ++
        (execute r.patch_cmd (env 0) "").1,
       (execute r.patch_cmd (env 0) "").2) := by
  unfold exec_recipe execStep2 execStep3
  rw [h1, h2]
  rcases hsnd : (execute r.patch_cmd (env 0) "").2 with _ | e <;>
    simp [h1, hsnd]

/-! ## Claim theorems for the streaming executor and dual-sink drain -/

/-- Claim C2: for a command whose process emits `N` lines, the streaming
executor `subproc_Popen` yields exactly those lines in emission order;
on exit code 0 the sequence ends normally with no raise, and on a
non-zero exit code the whole yield sequence is followed by exactly one
terminal raise of `CalledProcessError` carrying the command string and
that exit code — the generator never raises before draining its
output. -/
theorem subproc_Popen_yields_then_fails (cmd : String) (res : CmdResult) :
    yieldedLines (subproc_Popen cmd res) = res.lines ∧
    (res.exitCode = 0 →
      subproc_Popen cmd res = res.lines.map GenEvent.yieldLine ∧
      raisedErrs (subproc_Popen cmd res) = []) ∧
    (res.exitCode ≠ 0 →
      subproc_Popen cmd res =
        res.lines.map GenEvent.yieldLine ++ [GenEvent.raiseErr ⟨res.exitCode, cmd⟩]) := by
  refine ⟨?_, ?_, ?_⟩
  · rw [subproc_Popen_eq]
    by_cases h : res.exitCode = 0
    · simpa [h] using yieldedLines_map res.lines
    · rw [if_pos h]
      rw [yieldedLines, List.filterMap_append]
      rw [show List.filterMap _ (res.lines.map GenEvent.yieldLine) =
            yieldedLines (res.lines.map GenEvent.yieldLine) from rfl]
      rw [yieldedLines_map res.lines]
      simp
  · intro h
    constructor
    · rw [subproc_Popen_eq]
      simp [h]
    · rw [subproc_Popen_eq]
      simpa [h] using raisedErrs_map res.lines
  · intro h
    rw [subproc_Popen_eq, if_pos h]

/-- Claim C4: draining a command through `execute` prints every emitted line
to the console; with a file sink the trace alternates, per line, a
console print immediately followed by the file write of the same line
(both before the next line is pulled), so the concatenated file writes
equal the concatenated console output byte for byte; without a sink
path no file event occurs at all. -/
theorem execute_dual_sink_fidelity (cmd : String) (res : CmdResult) (lf : String) :
    consoleLines (execute cmd res lf).1 = res.lines ∧
    (lf ≠ "" →
      (execute cmd res lf).1 =
        Event.fopen lf ::
          (res.lines.flatMap fun l => [Event.print l, Event.fwrite lf l]) ++
          [Event.fclose lf] ∧
      String.join (fileWrites lf (execute cmd res lf).1) =
        String.join (consoleLines (execute cmd res lf).1)) ∧
    (lf = "" → (execute cmd res lf).1.filter isFileEvent = []) := by
  refine ⟨consoleLines_execute cmd res lf, ?_, ?_⟩
  · intro h
    refine ⟨congrArg Prod.fst (execute_file_eq cmd res lf h), ?_⟩
    rw [fileWrites_execute cmd res lf h, consoleLines_execute cmd res lf]
  · intro h
    subst h
    rw [execute_console_eq]
    exact filter_isFileEvent_map_print res.lines

/-- Claim C7: with a file sink, `execute` holds the file open in append mode
for the whole drain: the resulting file content is the previous content
extended by the drained lines (never overwritten or truncated), no
other file changes, and the close event is the last event of the trace
— also when the drain ends in a `CalledProcessError` because the
command exited non-zero. -/
theorem execute_append_scoped_close (fs : String → String) (cmd : String) (res : CmdResult)
    (lf : String) (h : lf ≠ "") :
    applyFS fs (execute cmd res lf).1 lf = fs lf ++ String.join res.lines ∧
    (∀ q, q ≠ lf → applyFS fs (execute cmd res lf).1 q = fs q) ∧
    (execute cmd res lf).1.getLast? = some (Event.fclose lf) ∧
    (execute cmd res lf).2 =
      (if res.exitCode ≠ 0 then some ⟨res.exitCode, cmd⟩ else none) := by
  have happ := applyFS_execute_file fs cmd res lf h
  refine ⟨?_, ?_, getLast_execute_file cmd res lf h, execute_snd cmd res lf⟩
  · rw [happ]
    simp
  · intro q hq
    rw [happ]
    simp [hq]

/-- Claim C10: the absent file sink is encoded as the empty string — with
`log_file` equal to `""` (the default) `execute` only prints to the
console and performs no file operation, while every non-empty string,
whatever path it names, is opened as the log file. -/
theorem execute_empty_sink_encoding (cmd : String) (res : CmdResult) :
    (execute cmd res "").1 = res.lines.map Event.print ∧
    (execute cmd res "").1.filter isFileEvent = [] ∧
    (∀ lf, lf ≠ "" → Event.fopen lf ∈ (execute cmd res lf).1) := by
  refine ⟨congrArg Prod.fst (execute_console_eq cmd res), ?_, ?_⟩
  · rw [execute_console_eq]
    exact filter_isFileEvent_map_print res.lines
  · intro lf h
    rw [execute_file_eq cmd res lf h]
    exact List.mem_append_left _ (List.mem_cons_self _ _)

/-! ## Claim theorems for the recipe runner -/

/-- Claim C1: the runner is fail-fast — when the step-1 pre-patch inventory
execution fails (`log_package_version_cmd` set and the first command
exiting non-zero), no patch-step invocation ever appears in the trace;
and when step 1 succeeds or is skipped but the step-2 patch execution
fails, no step-3 post-patch inventory invocation appears. -/
theorem exec_recipe_fail_fast (r : Recipe) (clock : Nat → DateTimeUTC) (env : Nat → CmdResult) :
    (r.log_package_version_cmd = true → (env 0).exitCode ≠ 0 →
      ∀ c lf, Event.invoke Step.patch c lf ∉ (exec_recipe r clock env).1) ∧
    ((r.log_package_version_cmd = true → (env 0).exitCode = 0) →
      (env (if r.log_package_version_cmd = true then 1 else 0)).exitCode ≠ 0 →
      ∀ c lf, Event.invoke Step.postPatchInv c lf ∉ (exec_recipe r clock env).1) := by
  constructor
  · intro h1 hf c lf hmem
    rw [exec_recipe_step1_fail r clock env h1 hf] at hmem
    have h2 := (mem_invokes _ _ _ _).mp hmem
    simp only [invokes_append, invokes_cons_logInfo, invokes_cons_timestamp,
      invokes_cons_invoke, invokes_nil, invokes_execute, List.append_nil,
      List.nil_append] at h2
    simp at h2
  · intro hok hf c lf hmem
    cases hb1 : r.log_package_version_cmd with
    | true =>
        have e0 : (env 0).exitCode = 0 := hok hb1
        rw [hb1] at hf
        simp only [if_true] at hf
        cases hb2 : r.log_patch_cmd with
        | true =>
            rw [exec_recipe_tt_patch_fail r clock env hb1 hb2 e0 hf] at hmem
            have h2 := (mem_invokes _ _ _ _).mp hmem
            simp only [invokes_append, invokes_cons_logInfo, invokes_cons_timestamp,
              invokes_cons_invoke, invokes_nil, invokes_execute, List.append_nil,
              List.nil_append] at h2
            simp at h2
        | false =>
            rw [exec_recipe_tf_patch_fail r clock env hb1 hb2 e0 hf] at hmem
            have h2 := (mem_invokes _ _ _ _).mp hmem
            simp only [invokes_append, invokes_cons_logInfo, invokes_cons_timestamp,
              invokes_cons_invoke, invokes_nil, invokes_execute, List.append_nil,
              List.nil_append] at h2
            simp at h2
    | false =>
        cases hb2 : r.log_patch_cmd with
        | true =>
            rw [exec_recipe_ft r clock env hb1 hb2] at hmem
            have h2 := (mem_invokes _ _ _ _).mp hmem
            simp only [invokes_append, invokes_cons_logInfo, invokes_cons_timestamp,
              invokes_cons_invoke, invokes_nil, invokes_execute, List.append_nil,
              List.nil_append] at h2
            simp at h2
        | false =>
            rw [exec_recipe_ff r clock env hb1 hb2] at hmem
            have h2 := (mem_invokes _ _ _ _).mp hmem
            simp only [invokes_append, invokes_cons_logInfo, invokes_cons_timestamp,
              invokes_cons_invoke, invokes_nil, invokes_execute, List.append_nil,
              List.nil_append] at h2
            simp at h2

/-- Claim C5: a recipe run to completion with both logging flags set opens
exactly the three log files built from `log_directory` with the
suffixes `package_versions_pre-patch`, the recipe name and
`package_versions_post-patch`, in that step order, one command
invocation per step; with both flags cleared it opens no file and
executes exactly one command, the patch command, draining to the
console. -/
theorem exec_recipe_log_files (r : Recipe) (clock : Nat → DateTimeUTC) (env : Nat → CmdResult) :
    (r.log_package_version_cmd = true → r.log_patch_cmd = true →
      (env 0).exitCode = 0 → (env 1).exitCode = 0 →
      openedFiles (exec_recipe r clock env).1 =
        [preLogName r (clock 0), patchLogName r (clock 1), postLogName r (clock 2)] ∧
      invokes (exec_recipe r clock env).1 =
        [(Step.prePatchInv, r.package_version_cmd, preLogName r (clock 0)),
         (Step.patch, r.patch_cmd, patchLogName r (clock 1)),
         (Step.postPatchInv, r.package_version_cmd, postLogName r (clock 2))]) ∧
    (r.log_package_version_cmd = false → r.log_patch_cmd = false →
      openedFiles (exec_recipe r clock env).1 = [] ∧
      invokes (exec_recipe r clock env).1 = [(Step.patch, r.patch_cmd, "")]) := by
  constructor
  · intro h1 h2 e0 e1
    rw [exec_recipe_tt_ok r clock env h1 h2 e0 e1]
    constructor
    · simp only [openedFiles_append, openedFiles_cons_logInfo, openedFiles_cons_timestamp,
        openedFiles_cons_invoke, openedFiles_nil, openedFiles_execute,
        List.append_nil, List.nil_append]
      simp [preLogName_ne_empty r (clock 0), patchLogName_ne_empty r (clock 1),
        postLogName_ne_empty r (clock 2)]
    · simp only [invokes_append, invokes_cons_logInfo, invokes_cons_timestamp,
        invokes_cons_invoke, invokes_nil, invokes_execute,
        List.append_nil, List.nil_append]
      simp
  · intro h1 h2
    rw [exec_recipe_ff r clock env h1 h2]
    constructor
    · simp only [openedFiles_append, openedFiles_cons_logInfo, openedFiles_cons_invoke,
        openedFiles_nil, openedFiles_execute, List.append_nil, List.nil_append]
      simp
    · simp only [invokes_append, invokes_cons_logInfo, invokes_cons_invoke,
        invokes_nil, invokes_execute, List.append_nil, List.nil_append]

/-- Claim C6: in a run with both logging flags set, each logged step takes
its own fresh clock reading (readings 0, 1 and 2, one per step), the
`getTimestamp` event immediately precedes that step's invocation in the
trace, the rendered timestamp is embedded in that step's log file name
— and every rendering of a clock reading has the sortable
`YYYYMMDDThhmmss.ffffffZ` shape with microsecond resolution. -/
theorem exec_recipe_timestamps (r : Recipe) (clock : Nat → DateTimeUTC) (env : Nat → CmdResult)
    (h1 : r.log_package_version_cmd = true) (h2 : r.log_patch_cmd = true)
    (e0 : (env 0).exitCode = 0) (e1 : (env 1).exitCode = 0) :
    exec_recipe r clock env =
      ([Event.logInfo ("Executing recipe: " ++ r.name),
        Event.getTimestamp (datetime_now_utc (clock 0)),
        Event.invoke Step.prePatchInv r.package_version_cmd (preLogName r (clock 0))] ++
        (execute r.package_version_cmd (env 0) (preLogName r (clock 0))).1 ++
       [Event.getTimestamp (datetime_now_utc (clock 1)),
        Event.invoke Step.patch r.patch_cmd (patchLogName r (clock 1))] ++
        (execute r.patch_cmd (env 1) (patchLogName r (clock 1))).1 ++
       [Event.getTimestamp (datetime_now_utc (clock 2)),
        Event.invoke Step.postPatchInv r.package_version_cmd (postLogName r (clock 2))] ++
        (execute r.package_version_cmd (env 2) (postLogName r (clock 2))).1,
       (execute r.package_version_cmd (env 2) (postLogName r (clock 2))).2) ∧
    (∀ t : DateTimeUTC, ValidDT t → TimestampFormat (datetime_now_utc t)) :=
  ⟨exec_recipe_tt_ok r clock env h1 h2 e0 e1, fun t _ => datetime_now_utc_format t⟩

/-! ## Claim theorems for the engine boundary (`__main__`) -/

/-- Claim C8: a non-zero command exit surfaces as `CalledProcessError` out of
`exec_recipe`, is caught at the `__main__` boundary and logged, and the
process still exits 0; the error carries a non-zero exit code of one of
the executed commands, and every line that failing command produced was
already printed to the console inside the recipe trace before the error
surfaced. -/
theorem mainRun_reports_failure (r : Recipe) (clock : Nat → DateTimeUTC)
    (env : Nat → CmdResult) (e : CalledProcessError)
    (he : (exec_recipe r clock env).2 = some e) :
    (mainRun r clock env).2 = 0 ∧
    Event.logError e ∈ (mainRun r clock env).1 ∧
    e.returncode ≠ 0 ∧
    (∃ i : Nat, e.returncode = (env i).exitCode ∧
      ∀ l ∈ (env i).lines, Event.print l ∈ (exec_recipe r clock env).1) := by
  have hmain : mainRun r clock env =
      ((exec_recipe r clock env).1 ++ [Event.logError e], 0) := by
    unfold mainRun
    rw [he]
  refine ⟨by rw [hmain], ?_, ?_⟩
  · rw [hmain]
    exact List.mem_append_right _ (List.mem_cons_self _ _)
  cases hb1 : r.log_package_version_cmd with
  | true =>
      by_cases hz0 : (env 0).exitCode = 0
      · cases hb2 : r.log_patch_cmd with
        | true =>
            by_cases hz1 : (env 1).exitCode = 0
            · have L := exec_recipe_tt_ok r clock env hb1 hb2 hz0 hz1
              have hsnd : (exec_recipe r clock env).2 =
                  (execute r.package_version_cmd (env 2) (postLogName r (clock 2))).2 := by
                rw [L]
              rw [hsnd, execute_snd] at he
              by_cases hz2 : (env 2).exitCode = 0
              · rw [if_neg (by simp [hz2])] at he
                exact absurd he (by simp)
              · rw [if_pos hz2] at he
                have he2 : e = ⟨(env 2).exitCode, r.package_version_cmd⟩ :=
                  (Option.some.inj he).symm
                subst he2
                refine ⟨hz2, 2, rfl, ?_⟩
                intro l hl
                rw [L]
                exact List.mem_append_right _ (print_mem_execute _ _ _ _ hl)
            · have L := exec_recipe_tt_patch_fail r clock env hb1 hb2 hz0 hz1
              have hsnd : (exec_recipe r clock env).2 =
                  some ⟨(env 1).exitCode, r.patch_cmd⟩ := by
                rw [L]
              rw [hsnd] at he
              have he2 : e = ⟨(env 1).exitCode, r.patch_cmd⟩ := (Option.some.inj he).symm
              subst he2
              refine ⟨hz1, 1, rfl, ?_⟩
              intro l hl
              rw [L]
              exact List.mem_append_right _ (print_mem_execute _ _ _ _ hl)
        | false =>
            by_cases hz1 : (env 1).exitCode = 0
            · have L := exec_recipe_tf_ok r clock env hb1 hb2 hz0 hz1
              have hsnd : (exec_recipe r clock env).2 =
                  (execute r.package_version_cmd (env 2) (postLogName r (clock 1))).2 := by
                rw [L]
              rw [hsnd, execute_snd] at he
              by_cases hz2 : (env 2).exitCode = 0
              · rw [if_neg (by simp [hz2])] at he
                exact absurd he (by simp)
              · rw [if_pos hz2] at he
                have he2 : e = ⟨(env 2).exitCode, r.package_version_cmd⟩ :=
                  (Option.some.inj he).symm
                subst he2
                refine ⟨hz2, 2, rfl, ?_⟩
                intro l hl
                rw [L]
                exact List.mem_append_right _ (print_mem_execute _ _ _ _ hl)
            · have L := exec_recipe_tf_patch_fail r clock env hb1 hb2 hz0 hz1
              have hsnd : (exec_recipe r clock env).2 =
                  some ⟨(env 1).exitCode, r.patch_cmd⟩ := by
                rw [L]
              rw [hsnd] at he
              have he2 : e = ⟨(env 1).exitCode, r.patch_cmd⟩ := (Option.some.inj he).symm
              subst he2
              refine ⟨hz1, 1, rfl, ?_⟩
              intro l hl
              rw [L]
              exact List.mem_append_right _ (print_mem_execute _ _ _ _ hl)
      · have hz0n : (env 0).exitCode ≠ 0 := hz0
        have L := exec_recipe_step1_fail r clock env hb1 hz0n
        have hsnd : (exec_recipe r clock env).2 =
            some ⟨(env 0).exitCode, r.package_version_cmd⟩ := by
          rw [L]
        rw [hsnd] at he
        have he2 : e = ⟨(env 0).exitCode, r.package_version_cmd⟩ := (Option.some.inj he).symm
        subst he2
        refine ⟨hz0n, 0, rfl, ?_⟩
        intro l hl
        rw [L]
        exact List.mem_append_right _ (print_mem_execute _ _ _ _ hl)
  | false =>
      cases hb2 : r.log_patch_cmd with
      | true =>
          have L := exec_recipe_ft r clock env hb1 hb2
          have hsnd : (exec_recipe r clock env).2 =
              (execute r.patch_cmd (env 0) (patchLogName r (clock 0))).2 := by
            rw [L]
          rw [hsnd, execute_snd] at he
          by_cases hz0 : (env 0).exitCode = 0
          · rw [if_neg (by simp [hz0])] at he
            exact absurd he (by simp)
          · rw [if_pos hz0] at he
            have he2 : e = ⟨(env 0).exitCode, r.patch_cmd⟩ := (Option.some.inj he).symm
            subst he2
            refine ⟨hz0, 0, rfl, ?_⟩
            intro l hl
            rw [L]
            exact List.mem_append_right _ (print_mem_execute _ _ _ _ hl)
      | false =>
          have L := exec_recipe_ff r clock env hb1 hb2
          have hsnd : (exec_recipe r clock env).2 = (execute r.patch_cmd (env 0) "").2 := by
            rw [L]
          rw [hsnd, execute_snd] at he
          by_cases hz0 : (env 0).exitCode = 0
          · rw [if_neg (by simp [hz0])] at he
            exact absurd he (by simp)
          · rw [if_pos hz0] at he
            have he2 : e = ⟨(env 0).exitCode, r.patch_cmd⟩ := (Option.some.inj he).symm
            subst he2
            refine ⟨hz0, 0, rfl, ?_⟩
            intro l hl
            rw [L]
            exact List.mem_append_right _ (print_mem_execute _ _ _ _ hl)

/-- Claim C9: whatever the outcome of the selected recipe, the program logs
any `CalledProcessError` and still reaches `exit(0)`: the process exit
status is always 0 and never distinguishes a failed patch run from a
successful one. -/
theorem mainRun_exit_zero (r : Recipe) (clock : Nat → DateTimeUTC) (env : Nat → CmdResult) :
    (mainRun r clock env).2 = 0 ∧
    (∀ e, (exec_recipe r clock env).2 = some e →
      Event.logError e ∈ (mainRun r clock env).1) := by
  rcases hsnd : (exec_recipe r clock env).2 with _ | e0
  · constructor
    · unfold mainRun
      rw [hsnd]
    · intro e he
      exact absurd he (by simp)
  · have hmain : mainRun r clock env =
        ((exec_recipe r clock env).1 ++ [Event.logError e0], 0) := by
      unfold mainRun
      rw [hsnd]
    constructor
    · rw [hmain]
    · intro e he
      obtain rfl : e0 = e := Option.some.inj he
      rw [hmain]
      exact List.mem_append_right _ (List.mem_cons_self _ _)

/-! ## Schema validator lemmas -/

lemma propertiesErrors_nil_iff (k : String) (kvs : List (String × JVal)) :
    propertiesErrors k kvs = [] ↔
      ∀ pc ∈ propSchemas, ∀ v, kvs.lookup pc.1 = some v → pc.2 v = true := by
  rw [propertiesErrors, List.filterMap_eq_nil_iff]
  constructor
  · intro h pc hpc v hv
    have h2 := h pc hpc
    rw [hv] at h2
    by_cases hc : pc.2 v = true
    · exact hc
    · simp [hc] at h2
  · intro h pc hpc
    rcases hl : kvs.lookup pc.1 with _ | v
    · simp
    · simp [h pc hpc v hl]

lemma requiredErrors_nil_iff (k : String) (kvs : List (String × JVal)) :
    requiredErrors k kvs = [] ↔ ∀ p ∈ requiredProps, (kvs.lookup p).isSome = true := by
  rw [requiredErrors, List.filterMap_eq_nil_iff]
  constructor
  · intro h p hp
    have h2 := h p hp
    rcases hl : kvs.lookup p with _ | v
    · rw [hl] at h2
      simp at h2
    · simp [hl]
  · intro h p hp
    have h2 := h p hp
    rcases hl : kvs.lookup p with _ | v
    · rw [hl] at h2
      simp at h2
    · simp

/-- An entry produces no error exactly when it satisfies the
spec-stated validity predicate. -/
lemma entryErrors_nil_iff (k : String) (v : JVal) :
    entryErrors k v = [] ↔ EntryValidSpec v = true := by
  cases v with
  | obj kvs =>
      rw [show entryErrors k (JVal.obj kvs) =
            propertiesErrors k kvs ++ requiredErrors k kvs from rfl]
      rw [List.append_eq_nil, propertiesErrors_nil_iff, requiredErrors_nil_iff]
      constructor
      · rintro ⟨hp, hr⟩
        have r1 := hr "log_directory" (by simp [requiredProps])
        have r2 := hr "log_package_version_cmd" (by simp [requiredProps])
        have r3 := hr "log_patch_cmd" (by simp [requiredProps])
        have r4 := hr "name" (by simp [requiredProps])
        have r5 := hr "patch_cmd" (by simp [requiredProps])
        have r6 := hr "package_version_cmd" (by simp [requiredProps])
        rcases hl1 : kvs.lookup "log_directory" with _ | v1
        · rw [hl1] at r1
          simp at r1
        rcases hl2 : kvs.lookup "log_package_version_cmd" with _ | v2
        · rw [hl2] at r2
          simp at r2
        rcases hl3 : kvs.lookup "log_patch_cmd" with _ | v3
        · rw [hl3] at r3
          simp at r3
        rcases hl4 : kvs.lookup "name" with _ | v4
        · rw [hl4] at r4
          simp at r4
        rcases hl5 : kvs.lookup "patch_cmd" with _ | v5
        · rw [hl5] at r5
          simp at r5
        rcases hl6 : kvs.lookup "package_version_cmd" with _ | v6
        · rw [hl6] at r6
          simp at r6
        have t1 := hp ("log_directory", isStr) (by simp [propSchemas]) v1 hl1
        have t2 := hp ("log_package_version_cmd", isBool) (by simp [propSchemas]) v2 hl2
        have t3 := hp ("log_patch_cmd", isBool) (by simp [propSchemas]) v3 hl3
        have t4 := hp ("name", isStr) (by simp [propSchemas]) v4 hl4
        have t5 := hp ("patch_cmd", isStr) (by simp [propSchemas]) v5 hl5
        have t6 := hp ("package_version_cmd", isStr) (by simp [propSchemas]) v6 hl6
        simp only [EntryValidSpec, hl1, hl2, hl3, hl4, hl5, hl6, Bool.and_eq_true]
        exact ⟨⟨⟨⟨⟨t1, t4⟩, t5⟩, t6⟩, t2⟩, t3⟩
      · intro h
        simp only [EntryValidSpec] at h
        rcases hl1 : kvs.lookup "log_directory" with _ | v1 <;> rw [hl1] at h
        · simp at h
        rcases hl2 : kvs.lookup "log_package_version_cmd" with _ | v2 <;> rw [hl2] at h
        · simp at h
        rcases hl3 : kvs.lookup "log_patch_cmd" with _ | v3 <;> rw [hl3] at h
        · simp at h
        rcases hl4 : kvs.lookup "name" with _ | v4 <;> rw [hl4] at h
        · simp at h
        rcases hl5 : kvs.lookup "patch_cmd" with _ | v5 <;> rw [hl5] at h
        · simp at h
        rcases hl6 : kvs.lookup "package_version_cmd" with _ | v6 <;> rw [hl6] at h
        · simp at h
        simp only [Bool.and_eq_true] at h
        obtain ⟨⟨⟨⟨⟨t1, t4⟩, t5⟩, t6⟩, t2⟩, t3⟩ := h
        constructor
        · intro pc hpc v hv
          simp only [propSchemas, List.mem_cons, List.not_mem_nil, or_false] at hpc
          rcases hpc with h1 | h1 | h1 | h1 | h1 | h1 <;> subst h1 <;>
            simp_all
        · intro p hp
          simp only [requiredProps, List.mem_cons, List.not_mem_nil, or_false] at hp
          rcases hp with h1 | h1 | h1 | h1 | h1 | h1 <;> subst h1 <;> simp_all
  | null => simp [entryErrors, EntryValidSpec]
  | bool b => simp [entryErrors, EntryValidSpec]
  | num n => simp [entryErrors, EntryValidSpec]
  | str sv => simp [entryErrors, EntryValidSpec]
  | arr xs => simp [entryErrors, EntryValidSpec]

/-- Every error produced for an entry keyed `k` carries a path starting
at `k`. -/
lemma entryErrors_path (k : String) (v : JVal) (er : SchemaError)
    (he : er ∈ entryErrors k v) : er.path.head? = some k := by
  cases v with
  | obj kvs =>
      rw [show entryErrors k (JVal.obj kvs) =
            propertiesErrors k kvs ++ requiredErrors k kvs from rfl] at he
      rcases List.mem_append.mp he with he | he
      · rw [propertiesErrors] at he
        obtain ⟨pc, hpc, hf⟩ := List.mem_filterMap.mp he
        rcases hl : kvs.lookup pc.1 with _ | v1 <;> rw [hl] at hf
        · simp at hf
        · by_cases hc : pc.2 v1 = true
          · simp [hc] at hf
          · simp only [hc, if_false] at hf
            obtain rfl := Option.some.inj hf
            rfl
      · rw [requiredErrors] at he
        obtain ⟨p, hp, hf⟩ := List.mem_filterMap.mp he
        rcases hl : kvs.lookup p with _ | v1 <;> rw [hl] at hf
        · obtain rfl := Option.some.inj hf
          rfl
        · simp at hf
  | null =>
      simp only [entryErrors, List.mem_singleton] at he
      subst he
      rfl
  | bool b =>
      simp only [entryErrors, List.mem_singleton] at he
      subst he
      rfl
  | num n =>
      simp only [entryErrors, List.mem_singleton] at he
      subst he
      rfl
  | str sv =>
      simp only [entryErrors, List.mem_singleton] at he
      subst he
      rfl
  | arr xs =>
      simp only [entryErrors, List.mem_singleton] at he
      subst he
      rfl

/-- Claim C3: for a deserialized configuration mapping, the validator
collects no `SchemaError` exactly when every top-level entry is an
object carrying all six required properties with the exact required
types (extra unknown properties never contribute an error, since
validity ignores them); `validate_schema_conf` returns 0 exactly in
that case; and every invalid entry contributes at least one error whose
path starts at that entry key. -/
theorem validate_schema_conf_correct (kvs : List (String × JVal)) :
    (validate_schema_conf (JVal.obj kvs) = 0 ↔ iter_errors (JVal.obj kvs) = []) ∧
    (iter_errors (JVal.obj kvs) = [] ↔ ∀ kv ∈ kvs, EntryValidSpec kv.2 = true) ∧
    (∀ kv ∈ kvs, EntryValidSpec kv.2 = false →
      ∃ er ∈ iter_errors (JVal.obj kvs), er.path.head? = some kv.1) := by
  refine ⟨?_, ?_, ?_⟩
  · by_cases h : iter_errors (JVal.obj kvs) = [] <;> simp [validate_schema_conf, h]
  · rw [show iter_errors (JVal.obj kvs) =
        kvs.flatMap (fun kv => entryErrors kv.1 kv.2) from rfl]
    rw [List.flatMap_eq_nil_iff]
    constructor
    · intro h kv hkv
      exact (entryErrors_nil_iff kv.1 kv.2).mp (h kv hkv)
    · intro h kv hkv
      exact (entryErrors_nil_iff kv.1 kv.2).mpr (h kv hkv)
  · intro kv hkv hbad
    have hne : entryErrors kv.1 kv.2 ≠ [] := by
      rw [Ne, entryErrors_nil_iff, hbad]
      simp
    obtain ⟨er, her⟩ := List.exists_mem_of_ne_nil _ hne
    refine ⟨er, ?_, entryErrors_path kv.1 kv.2 er her⟩
    rw [show iter_errors (JVal.obj kvs) =
        kvs.flatMap (fun kv => entryErrors kv.1 kv.2) from rfl]
    exact List.mem_flatMap.mpr ⟨kv, hkv, her⟩

/-! ## Witnesses: each claim theorem applied at concrete inputs -/

set_option allowUnsafeReducibility true in
attribute [semireducible] execute subproc_Popen drainEvents pathJoin datetime_now_utc

theorem exec_recipe_fail_fast_witness :
    (∀ c lf, Event.invoke Step.patch c lf ∉ (exec_recipe rcTT clk envFail0).1) ∧
    (∀ c lf, Event.invoke Step.postPatchInv c lf ∉ (exec_recipe rcTT clk envFail1).1) :=
  ⟨(exec_recipe_fail_fast rcTT clk envFail0).1 rfl (by decide),
   (exec_recipe_fail_fast rcTT clk envFail1).2 (fun _ => by decide) (by decide)⟩

theorem subproc_Popen_yields_then_fails_witness :
    subproc_Popen "apt-get upgrade" ⟨["a\n", "b\n"], 5⟩ =
      [GenEvent.yieldLine "a\n", GenEvent.yieldLine "b\n",
       GenEvent.raiseErr ⟨5, "apt-get upgrade"⟩] := by
  have h := (subproc_Popen_yields_then_fails "apt-get upgrade" ⟨["a\n", "b\n"], 5⟩).2.2
    (by decide)
  simpa using h

theorem validate_schema_conf_correct_witness :
    iter_errors (JVal.obj [("good", goodEntry)]) = [] ∧
    (∃ er ∈ iter_errors (JVal.obj kvsW), er.path.head? = some "bad") :=
  ⟨(validate_schema_conf_correct [("good", goodEntry)]).2.1.mpr (by decide),
   (validate_schema_conf_correct kvsW).2.2 ("bad", JVal.str "oops")
     (List.Mem.tail _ (List.Mem.head _)) rfl⟩

theorem execute_dual_sink_fidelity_witness :
    String.join (fileWrites "f.log" (execute "cmd" ⟨["x\n"], 0⟩ "f.log").1) =
      String.join (consoleLines (execute "cmd" ⟨["x\n"], 0⟩ "f.log").1) ∧
    (execute "cmd" ⟨["x\n"], 0⟩ "").1.filter isFileEvent = [] :=
  ⟨((execute_dual_sink_fidelity "cmd" ⟨["x\n"], 0⟩ "f.log").2.1 (by decide)).2,
   (execute_dual_sink_fidelity "cmd" ⟨["x\n"], 0⟩ "").2.2 rfl⟩

theorem exec_recipe_log_files_witness :
    openedFiles (exec_recipe rcTT clk envOK).1 =
      [preLogName rcTT (clk 0), patchLogName rcTT (clk 1), postLogName rcTT (clk 2)] ∧
    openedFiles (exec_recipe rcFF clk envOK).1 = [] :=
  ⟨((exec_recipe_log_files rcTT clk envOK).1 rfl rfl (by decide) (by decide)).1,
   ((exec_recipe_log_files rcFF clk envOK).2 rfl rfl).1⟩

theorem exec_recipe_timestamps_witness :
    TimestampFormat (datetime_now_utc ⟨2022, 12, 1, 10, 20, 30, 7⟩) :=
  (exec_recipe_timestamps rcTT clk envOK rfl rfl (by decide) (by decide)).2
    ⟨2022, 12, 1, 10, 20, 30, 7⟩ (by decide)

theorem execute_append_scoped_close_witness :
    applyFS (fun _ => "old\n") (execute "cmd" ⟨["x\n"], 7⟩ "f.log").1 "f.log" =
      (fun _ => "old\n") "f.log" ++ String.join ["x\n"] ∧
    (execute "cmd" ⟨["x\n"], 7⟩ "f.log").1.getLast? = some (Event.fclose "f.log") :=
  have h := execute_append_scoped_close (fun _ => "old\n") "cmd" ⟨["x\n"], 7⟩ "f.log"
    (by decide)
  ⟨h.1, h.2.2.1⟩

theorem mainRun_reports_failure_witness :
    (mainRun rcTT clk envFail0).2 = 0 ∧
    Event.logError ⟨2, "echo v1"⟩ ∈ (mainRun rcTT clk envFail0).1 :=
  have h := mainRun_reports_failure rcTT clk envFail0 ⟨2, "echo v1"⟩ (by decide)
  ⟨h.1, h.2.1⟩

theorem mainRun_exit_zero_witness :
    (mainRun rcFF clk envFail0).2 = 0 ∧
    Event.logError ⟨2, "echo patched"⟩ ∈ (mainRun rcFF clk envFail0).1 :=
  ⟨(mainRun_exit_zero rcFF clk envFail0).1,
   (mainRun_exit_zero rcFF clk envFail0).2 ⟨2, "echo patched"⟩ (by decide)⟩

theorem execute_empty_sink_encoding_witness :
    Event.fopen "no-such-dir/f.log" ∈
      (execute "cmd" ⟨["x\n"], 0⟩ "no-such-dir/f.log").1 :=
  (execute_empty_sink_encoding "cmd" ⟨["x\n"], 0⟩).2.2 "no-such-dir/f.log" (by decide)

end LogPatch
